import Mathlib

/-!
Verification of the LyCORIS `kohya.py` network controller
(`src/lycoris/kohya.py`): adapter discovery over a host module tree,
flattened naming, the name–uniqueness assertion, partition flag
resolution in `apply_to`, non-strict weight population, multiplier
broadcast, and the `create_network_from_weights` inference scan.

Design of the embedding:
* A torch module tree is an inductive `TModule` carrying the class name
  (the source dispatches on `module.__class__.__name__`), the first
  component of `kernel_size` (read by `k_size, *_ = child_module.kernel_size`)
  and the ordered named children.  `TModule.namedModules` mirrors
  `torch.nn.Module.named_modules()` (depth-first preorder, the node
  itself first under its running dotted path).
* Floats are modelled as `Rat`; ranks as `Int` (`int(conv_lora_dim)` is
  the identity on integers).  `lora_dim` and `alpha` can be Python
  `None` after `create_network_from_weights`, hence `Option`; comparing
  `None > 0` raises `TypeError` in Python, modelled by `Except.error`.
* Fallible paths (`assert`, the `None > 0` comparison) return
  `Except String`.
-/

/-- A tensor as the controller observes it: its shape (`value.size()`)
and, for the scalar `alpha` entries, its numeric value. -/
structure Tensor where
  shape : List Nat
  val : Rat
  deriving Repr, DecidableEq

/-- A torch module tree node: the class name string the source
dispatches on, the leading component of `kernel_size` (meaningful for
`Conv2d` nodes), and the ordered, named children. -/
inductive TModule where
  | mk (className : String) (kernelSize : Nat) (children : List (String × TModule))

def TModule.className : TModule → String
  | .mk cn _ _ => cn

def TModule.kernelSize : TModule → Nat
  | .mk _ ks _ => ks

def TModule.children : TModule → List (String × TModule)
  | .mk _ _ cs => cs

/-- The `named_modules` child path accumulation:
`submodule_prefix = prefix + ('.' if prefix else '') + name`. -/
def childPath (pre n : String) : String :=
  if pre = "" then n else pre ++ "." ++ n

mutual

/-- Model of `torch.nn.Module.named_modules()` relative to an accumulated path:
yields the node itself first, then the children depth-first in
declaration order. -/
def TModule.namedModulesAux : TModule → String → List (String × TModule)
  | .mk cn ks cs, pre =>
    (pre, .mk cn ks cs) :: namedModulesList cs pre

def namedModulesList : List (String × TModule) → String → List (String × TModule)
  | [], _ => []
  | (n, c) :: rest, pre =>
    c.namedModulesAux (childPath pre n) ++ namedModulesList rest pre

end

/-- Model of `root.named_modules()`: the traversal started with the empty path. -/
def TModule.namedModules (m : TModule) : List (String × TModule) :=
  m.namedModulesAux ""

/-- The adapter strategy tag selected by the `algo` option
(`{'lora': LoConModule, 'loha': LohaModule}`). -/
inductive ModuleTag where
  | locon
  | loha
  deriving Repr, DecidableEq

/-- One adapter instance, as constructed by `create_modules`:
`network_module(lora_name, child_module, multiplier, dim, alpha, dropout)`.
`attached` records whether `apply_to()` has been invoked on it (the graph
splice); `tensors` is the adapter module's own parameter state-dict
(relative key → tensor).  The tensor contents are created inside
`LoConModule`/`LohaModule`; the controller only ever moves them around
by name, which is all this field tracks. -/
structure Adapter where
  lora_name : String
  base : TModule
  multiplier : Rat
  dim : Option Int
  alpha : Option Rat
  dropout : Rat
  tag : ModuleTag
  attached : Bool
  tensors : List (String × Tensor)

/-- The hyperparameters closed over by `create_modules` inside
`LoRANetwork.__init__`. -/
structure NetConfig where
  netmod : ModuleTag
  multiplier : Rat
  lora_dim : Option Int
  conv_lora_dim : Int
  alpha : Option Rat
  conv_alpha : Rat
  dropout : Rat

/-- Python `lora_dim > 0` where `lora_dim` may be `None`
(as after `create_network_from_weights` on a file with no 2-D
`lora_down` tensor): comparing `None > 0` raises `TypeError`. -/
def dimPos : Option Int → Except String Bool
  | none => .error "TypeError: not supported between instances of NoneType and int"
  | some d => .ok (decide (0 < d))

/-- Adapter built by the base branch:
`network_module(lora_name, child_module, self.multiplier, self.lora_dim, self.alpha, self.dropout)`. -/
def mkBaseAdapter (cfg : NetConfig) (loraName : String) (child : TModule) : Adapter :=
  ⟨loraName, child, cfg.multiplier, cfg.lora_dim, cfg.alpha, cfg.dropout, cfg.netmod, false, []⟩

/-- Adapter built by the conv branch:
`network_module(lora_name, child_module, self.multiplier, self.conv_lora_dim, self.conv_alpha, self.dropout)`. -/
def mkConvAdapter (cfg : NetConfig) (loraName : String) (child : TModule) : Adapter :=
  ⟨loraName, child, cfg.multiplier, some cfg.conv_lora_dim, some cfg.conv_alpha, cfg.dropout,
    cfg.netmod, false, []⟩

/-- The per-leaf dispatch of `create_modules`:
```
if child_module.__class__.__name__ == 'Linear' and lora_dim>0: ...base
elif child_module.__class__.__name__ == 'Conv2d':
    k_size, *_ = child_module.kernel_size
    if k_size==1 and lora_dim>0: ...base
    elif conv_lora_dim>0: ...conv
    else: continue
else: continue
```
`none` is the `continue` (no adapter for this leaf). -/
def processLeaf (cfg : NetConfig) (loraName : String) (child : TModule) :
    Except String (Option Adapter) :=
  if child.className = "Linear" then
    match dimPos cfg.lora_dim with
    | .error e => .error e
    | .ok b =>
      if b then .ok (some (mkBaseAdapter cfg loraName child)) else .ok none
  else if child.className = "Conv2d" then
    if child.kernelSize = 1 then
      match dimPos cfg.lora_dim with
      | .error e => .error e
      | .ok b =>
        if b then .ok (some (mkBaseAdapter cfg loraName child))
        else if 0 < cfg.conv_lora_dim then .ok (some (mkConvAdapter cfg loraName child))
        else .ok none
    else
      if 0 < cfg.conv_lora_dim then .ok (some (mkConvAdapter cfg loraName child))
      else .ok none
  else .ok none

/-- The pairs the two nested loops of `create_modules` iterate over:
for every `(name, module)` of `root.named_modules()` whose class name is
in the target list, every `(child_name, child_module)` of
`module.named_modules()`, in order. -/
def targetLeaves (root : TModule) (targets : List String) :
    List (String × String × TModule) :=
  root.namedModules.flatMap fun p =>
    if targets.contains p.2.className then
      p.2.namedModules.map fun q => (p.1, q.1, q.2)
    else []

/-- Python `s.replace('.', '_')`: with a one-character pattern and a
one-character replacement this is exactly the character map. -/
def pyReplaceDot (s : String) : String :=
  ⟨s.data.map fun c => if c = '.' then '_' else c⟩

/-- The flattened adapter name:
`lora_name = (prefix + '.' + name + '.' + child_name).replace('.', '_')`. -/
def loraNameOf (pfx nm childName : String) : String :=
  pyReplaceDot (pfx ++ "." ++ nm ++ "." ++ childName)

/-- The accumulation loop of `create_modules` over the target leaves
(`loras.append(lora)` on every created adapter, in iteration order). -/
def buildLoop (cfg : NetConfig) (pfx : String) :
    List (String × String × TModule) → List Adapter → Except String (List Adapter)
  | [], acc => .ok acc
  | (nm, cn, c) :: rest, acc =>
    match processLeaf cfg (loraNameOf pfx nm cn) c with
    | .error e => .error e
    | .ok (some a) => buildLoop cfg pfx rest (acc ++ [a])
    | .ok none => buildLoop cfg pfx rest acc

/-- Model of `create_modules(prefix, root_module, target_replace_modules)`. -/
def create_modules (cfg : NetConfig) (pfx : String) (root : TModule)
    (targets : List String) : Except String (List Adapter) :=
  buildLoop cfg pfx (targetLeaves root targets) []

/-- Target container class lists of `LoRANetwork`
(`UNET_TARGET_REPLACE_MODULE`). -/
def unetTargets : List String :=
  ["Transformer2DModel", "Attention", "ResnetBlock2D", "Downsample2D", "Upsample2D"]

/-- The `TEXT_ENCODER_TARGET_REPLACE_MODULE` list. -/
def teTargets : List String :=
  ["CLIPAttention", "CLIPMLP"]

/-- The name-uniqueness assertion loop of `LoRANetwork.__init__`:
```
names = set()
for lora in self.text_encoder_loras + self.unet_loras:
    assert lora.lora_name not in names, f"duplicated lora name: ..."
    names.add(lora.lora_name)
```
(the growing set is modelled as the list of names seen so far). -/
def assertUniqueNames : List Adapter → List String → Except String Unit
  | [], _ => .ok ()
  | l :: rest, names =>
    if names.contains l.lora_name then
      .error ("duplicated lora name: " ++ l.lora_name)
    else assertUniqueNames rest (names ++ [l.lora_name])

/-- The `LoRANetwork` controller state.  `modules` is the torch
submodule registry written by `self.add_module(lora.lora_name, lora)`. -/
structure LoRANetwork where
  multiplier : Rat
  lora_dim : Option Int
  conv_lora_dim : Int
  alpha : Option Rat
  conv_alpha : Rat
  dropout : Rat
  netmod : ModuleTag
  text_encoder_loras : List Adapter
  unet_loras : List Adapter
  weights_sd : Option (List (String × Tensor))
  modules : List (String × Adapter)

/-- Model of `LoRANetwork.__init__`.  The Python defaults are
`multiplier=1.0, lora_dim=4, conv_lora_dim=4, alpha=1, conv_alpha=1,
dropout=0, network_module=LoConModule`; callers pass them explicitly
here.  `self.conv_lora_dim = int(conv_lora_dim)` and
`self.conv_alpha = float(conv_alpha)` are identities on the `Int`/`Rat`
embedding.  Errors are the `TypeError` of a `None` rank compared with
`0` and the duplicated-name assertion. -/
def LoRANetwork.init (text_encoder unet : TModule) (multiplier : Rat)
    (lora_dim : Option Int) (conv_lora_dim : Int) (alpha : Option Rat)
    (conv_alpha : Rat) (dropout : Rat) (netmod : ModuleTag) :
    Except String LoRANetwork :=
  let cfg : NetConfig :=
    ⟨netmod, multiplier, lora_dim, conv_lora_dim, alpha, conv_alpha, dropout⟩
  match create_modules cfg "lora_te" text_encoder teTargets with
  | .error e => .error e
  | .ok teLoras =>
    match create_modules cfg "lora_unet" unet unetTargets with
    | .error e => .error e
    | .ok unetLoras =>
      match assertUniqueNames (teLoras ++ unetLoras) [] with
      | .error e => .error e
      | .ok _ =>
        .ok ⟨multiplier, lora_dim, conv_lora_dim, alpha, conv_alpha, dropout, netmod,
          teLoras, unetLoras, none, []⟩

/-- Model of `LoRANetwork.set_multiplier`:
`self.multiplier = multiplier; for lora in te + unet: lora.multiplier = self.multiplier`. -/
def LoRANetwork.set_multiplier (net : LoRANetwork) (multiplier : Rat) : LoRANetwork :=
  { net with
    multiplier := multiplier
    text_encoder_loras := net.text_encoder_loras.map fun l => { l with multiplier := multiplier }
    unet_loras := net.unet_loras.map fun l => { l with multiplier := multiplier } }

/-- Python `key.startswith(pat)` on the underlying character lists. -/
def pyStartsWith (s pat : String) : Bool :=
  pat.data.isPrefixOf s.data

/-- Python truthiness of `self.weights_sd` in `if self.weights_sd:`:
`None` and the empty dict are both falsy. -/
def truthyWeights : Option (List (String × Tensor)) → Bool
  | none => false
  | some l => !l.isEmpty

/-- The presence scan of `apply_to`:
```
weights_has_text_encoder = weights_has_unet = False
for key in self.weights_sd.keys():
    if key.startswith(LORA_PREFIX_TEXT_ENCODER): weights_has_text_encoder = True
    elif key.startswith(LORA_PREFIX_UNET): weights_has_unet = True
```
-/
def scanPresence : List String → Bool × Bool → Bool × Bool
  | [], p => p
  | k :: rest, (t, u) =>
    if pyStartsWith k "lora_te" then scanPresence rest (true, u)
    else if pyStartsWith k "lora_unet" then scanPresence rest (t, true)
    else scanPresence rest (t, u)

/-- One flag check of `apply_to`: `None` means infer, an explicit flag
must equal the inferred presence (`assert apply_x == weights_has_x`). -/
def resolveFlag (given : Option Bool) (has : Bool) (msg : String) : Except String Bool :=
  match given with
  | none => .ok has
  | some b => if b = has then .ok b else .error msg

/-- Flag resolution of `LoRANetwork.apply_to` over the pending weights:
truthy weights infer presence and check explicit flags against it;
otherwise both flags must be present
(`assert apply_text_encoder is not None and apply_unet is not None`). -/
def resolveFlags (weights_sd : Option (List (String × Tensor)))
    (apply_text_encoder apply_unet : Option Bool) : Except String (Bool × Bool) :=
  if truthyWeights weights_sd then
    let keys := (weights_sd.getD []).map Prod.fst
    let has := scanPresence keys (false, false)
    match resolveFlag apply_text_encoder has.1 "text encoder weights mismatch" with
    | .error e => .error e
    | .ok fte =>
      match resolveFlag apply_unet has.2 "u-net weights mismatch" with
      | .error e => .error e
      | .ok fu => .ok (fte, fu)
  else
    match apply_text_encoder, apply_unet with
    | some t, some u => .ok (t, u)
    | _, _ => .error "internal error: flag not set"

/-- Model of `load_state_dict(weights_sd, strict=False)` restricted to one
adapter module registered under `a.lora_name`: every parameter whose
fully-qualified key `lora_name.param` occurs in the dictionary is
overwritten, every other parameter keeps its current (zero-initialized)
value, and dictionary keys matching no parameter are ignored. -/
def populate (a : Adapter) (w : List (String × Tensor)) : Adapter :=
  { a with
    tensors := a.tensors.map fun p =>
      match w.lookup (a.lora_name ++ "." ++ p.1) with
      | some v => (p.1, v)
      | none => p }

/-- Model of `LoRANetwork.apply_to(text_encoder, unet, apply_text_encoder, apply_unet)`:
resolve the partition flags, clear disabled partitions, invoke
`lora.apply_to()` and `self.add_module(lora.lora_name, lora)` on every
remaining adapter, then (when the pending weights are truthy)
`self.load_state_dict(self.weights_sd, False)`. -/
def LoRANetwork.apply_to (net : LoRANetwork)
    (apply_text_encoder apply_unet : Option Bool) : Except String LoRANetwork :=
  match resolveFlags net.weights_sd apply_text_encoder apply_unet with
  | .error e => .error e
  | .ok fl =>
    let te1 := if fl.1 then net.text_encoder_loras else []
    let u1 := if fl.2 then net.unet_loras else []
    let doLoad := truthyWeights net.weights_sd
    let w := net.weights_sd.getD []
    let splice := fun (a : Adapter) =>
      let a1 := { a with attached := true }
      if doLoad then populate a1 w else a1
    let te2 := te1.map splice
    let u2 := u1.map splice
    .ok { net with
      text_encoder_loras := te2
      unet_loras := u2
      modules := (te2 ++ u2).map fun a => (a.lora_name, a) }

/-- Occurrence of `pat` as a contiguous sublist. -/
def listInfix (pat : List Char) : List Char → Bool
  | [] => pat.isEmpty
  | c :: rest => pat.isPrefixOf (c :: rest) || listInfix pat rest

/-- Python `pat in key` (substring test) on the underlying character lists. -/
def strContains (s pat : String) : Bool :=
  listInfix pat.data s.data

/-- A keyword-option value (`conv_dim`, `conv_alpha`, `dropout` are
numeric; `algo` is a string). -/
inductive KwVal where
  | num (q : Rat)
  | str (s : String)
  deriving Repr, DecidableEq

/-- The inference scan of `create_network_from_weights`:
```
network_alpha = None; network_dim = None
for key, value in weights_sd.items():
    if network_alpha is None and 'alpha' in key: network_alpha = value
    if network_dim is None and 'lora_down' in key and len(value.size()) == 2:
        network_dim = value.size()[0]
```
-/
def inferLoop : List (String × Tensor) → Option Tensor → Option Nat →
    Option Tensor × Option Nat
  | [], a, d => (a, d)
  | (k, v) :: rest, a, d =>
    let a1 := if a.isNone && strContains k "alpha" then some v else a
    let d1 := if d.isNone && (strContains k "lora_down" && decide (v.shape.length = 2)) then
        some (v.shape.getD 0 0)
      else d
    inferLoop rest a1 d1

/-- Model of `create_network_from_weights(multiplier, file, vae, text_encoder, unet, **kwargs)`
after the file has been read into `weights_sd`: infer alpha and dim,
apply the `network_alpha = network_dim` fallback, build the network
with the remaining `LoRANetwork.__init__` defaults
(`conv_lora_dim=4, conv_alpha=1, dropout=0, network_module=LoConModule`)
and pre-populate `network.weights_sd = weights_sd`.  The body never
reads `kwargs`, exactly as in the source. -/
def createNetworkFromWeights (multiplier : Rat) (weights_sd : List (String × Tensor))
    (text_encoder unet : TModule) (_kwargs : List (String × KwVal)) :
    Except String LoRANetwork :=
  let inf := inferLoop weights_sd none none
  let network_dim : Option Int := inf.2.map Int.ofNat
  let network_alpha : Option Rat :=
    match inf.1 with
    | some t => some t.val
    | none => inf.2.map fun d => (d : Rat)
  match LoRANetwork.init text_encoder unet multiplier network_dim 4
    network_alpha 1 0 .locon with
  | .error e => .error e
  | .ok net => .ok { net with weights_sd := some weights_sd }

/-- Success of an `Except` as a `Bool` (for closed counterexample statements). -/
def exceptOk {α : Type} : Except String α → Bool
  | .ok _ => true
  | .error _ => false

/-!
Adapter forward mathematics.  Modelled from the spec: the adapter
modules `LoConModule` (low-rank) and `LohaModule` (Hadamard-factorized)
are not under `src/`; the spec fixes their contract as
`base_layer(input) + correction(input) * (alpha / rank) * multiplier`
with one half of the correction parameterization initialized to zero.
Layers are modelled as arbitrary maps on rational vectors (this covers
dense layers and convolutions alike, a convolution being linear in its
flattened input). -/

/-- Modelled from the spec: trainable tensors of the low-rank (LoCon)
variant — a rank-`r` pair `up · down`. -/
structure LoConParams (n m r : ℕ) where
  down : Matrix (Fin r) (Fin m) ℚ
  up : Matrix (Fin n) (Fin r) ℚ

/-- Modelled from the spec: LoCon initialization — the `down` half is
freely initialized (any tensor), the `up` half starts at zero. -/
def loconInit (n m r : ℕ) (down : Matrix (Fin r) (Fin m) ℚ) : LoConParams n m r :=
  ⟨down, 0⟩

/-- Modelled from the spec: the LoCon correction `up (down x)`. -/
def loconCorrection {n m r : ℕ} (p : LoConParams n m r) (x : Fin m → ℚ) : Fin n → ℚ :=
  p.up.mulVec (p.down.mulVec x)

/-- Modelled from the spec: trainable tensors of the Hadamard-factorized
(LoHa) variant — two factor pairs whose products are combined entrywise. -/
structure LohaParams (n m r : ℕ) where
  w1a : Matrix (Fin n) (Fin r) ℚ
  w1b : Matrix (Fin r) (Fin m) ℚ
  w2a : Matrix (Fin n) (Fin r) ℚ
  w2b : Matrix (Fin r) (Fin m) ℚ

/-- Modelled from the spec: LoHa initialization — one half of the
parameterization (`w2a`) starts at zero, the rest is free. -/
def lohaInit (n m r : ℕ) (w1a : Matrix (Fin n) (Fin r) ℚ)
    (w1b w2b : Matrix (Fin r) (Fin m) ℚ) : LohaParams n m r :=
  ⟨w1a, w1b, 0, w2b⟩

/-- Modelled from the spec: the LoHa correction
`((w1a·w1b) ⊙ (w2a·w2b)) x`. -/
def lohaCorrection {n m r : ℕ} (p : LohaParams n m r) (x : Fin m → ℚ) : Fin n → ℚ :=
  (Matrix.hadamard (p.w1a * p.w1b) (p.w2a * p.w2b)).mulVec x

/-- Modelled from the spec: the uniform adapter forward contract
`base_layer(input) + correction(input) * (alpha / rank) * multiplier`
(dropout on the correction path is the identity at evaluation time). -/
def adapterForward {n m : ℕ} (base : (Fin m → ℚ) → Fin n → ℚ)
    (correction : (Fin m → ℚ) → Fin n → ℚ) (alpha rank multiplier : ℚ)
    (x : Fin m → ℚ) : Fin n → ℚ :=
  base x + (alpha / rank) • multiplier • correction x

/-- First-some combination (used to state the inference scan's result). -/
def optFirst {α : Type} (a b : Option α) : Option α :=
  match a with
  | some x => some x
  | none => b

/-- Fixture: a 2D convolution leaf whose leading kernel-size component is `k`. -/
def convLeaf (k : Nat) : TModule := .mk "Conv2d" k []

/-- Fixture: a dense leaf. -/
def linLeaf : TModule := .mk "Linear" 0 []

/-- Fixture: a U-Net-side host whose only target container `Attention`
holds one conv leaf with kernel size `k`. -/
def attnTree (k : Nat) : TModule :=
  .mk "UNet" 0 [("blk", .mk "Attention" 0 [("conv", convLeaf k)])]

/-- Fixture: a text-encoder-side host whose only target container
`CLIPMLP` holds one dense leaf. -/
def clipTree : TModule :=
  .mk "TE" 0 [("mlp", .mk "CLIPMLP" 0 [("fc", linLeaf)])]

/-- Fixture: a host with no target containers. -/
def emptyHost : TModule := .mk "Empty" 0 []

/-- Fixture: the default for positional list access in statements. -/
def defaultAdapter : Adapter := ⟨"", .mk "" 0 [], 0, none, none, 0, .locon, false, []⟩

/-- Fixture: a controller whose pending weights are the empty dict. -/
def emptyWeightsNet : LoRANetwork :=
  ⟨1, some 4, 4, some 1, 1, 0, .locon, [], [], some [], []⟩

/-- Names of the adapters of a discovery result (empty on error). -/
def adapterNames : Except String (List Adapter) → List String
  | .ok l => l.map Adapter.lora_name
  | .error _ => []

/-- Fixture: the controller built from `clipTree` and `attnTree 3` with
multiplier 1, rank 4, alpha 1, conv rank 4, conv alpha 1, dropout 0. -/
def c4net : LoRANetwork :=
  ⟨1, some 4, 4, some 1, 1, 0, .locon,
    [⟨"lora_te_mlp_fc", linLeaf, 1, some 4, some 1, 0, .locon, false, []⟩],
    [⟨"lora_unet_blk_conv", convLeaf 3, 1, some 4, some 1, 0, .locon, false, []⟩],
    none, []⟩

/-- Fixture: the result of `c4net.apply_to (some true) (some false)`
(text encoder enabled, U-Net disabled, no pending weights). -/
def c6net : LoRANetwork :=
  ⟨1, some 4, 4, some 1, 1, 0, .locon,
    [⟨"lora_te_mlp_fc", linLeaf, 1, some 4, some 1, 0, .locon, true, []⟩],
    [],
    none,
    [("lora_te_mlp_fc", ⟨"lora_te_mlp_fc", linLeaf, 1, some 4, some 1, 0, .locon, true, []⟩)]⟩

/-- Fixture: an adapter with one parameter tensor, for the weight
population witness. -/
def c7adapter : Adapter :=
  ⟨"lora_te_mlp_fc", linLeaf, 1, some 4, some 1, 0, .locon, true,
    [("lora_up.weight", ⟨[4, 8], 0⟩)]⟩

/-- Fixture: a weight dictionary with one alpha entry and one 2-D
`lora_down` tensor of leading dimension 16. -/
def c8weights : List (String × Tensor) :=
  [("x.alpha", ⟨[], 8⟩), ("y.lora_down.weight", ⟨[16, 32], 0⟩)]

/-- Fixture: the controller `create_network_from_weights` builds from
`c8weights` over empty hosts. -/
def c8net : LoRANetwork :=
  ⟨1, some 16, 4, some 8, 1, 0, .locon, [], [], some c8weights, []⟩

/-- C2: for every host layer, every adapter variant (low-rank LoCon and
Hadamard-factorized LoHa), and every input, immediately after adapter
construction the adapted forward output equals the base layer's output:
the zero-initialized half (`up` for LoCon, `w2a` for LoHa) makes the
correction term exactly zero. -/
theorem C2_zero_effect_at_init {n m r : ℕ} (base : (Fin m → ℚ) → Fin n → ℚ)
    (down : Matrix (Fin r) (Fin m) ℚ) (w1a : Matrix (Fin n) (Fin r) ℚ)
    (w1b w2b : Matrix (Fin r) (Fin m) ℚ) (alpha rank multiplier : ℚ) (x : Fin m → ℚ) :
    adapterForward base (loconCorrection (loconInit n m r down)) alpha rank multiplier x
      = base x ∧
    adapterForward base (lohaCorrection (lohaInit n m r w1a w1b w2b)) alpha rank multiplier x
      = base x := by
  constructor <;>
    simp [adapterForward, loconCorrection, loconInit, lohaCorrection, lohaInit,
      Matrix.zero_mulVec, Matrix.mulVec_zero, Matrix.zero_mul, Matrix.hadamard_zero]

/-- C1 (amended): for a conv leaf inside an allow-listed container, an
adapter with (base rank, base alpha) is created iff the kernel size is 1
and the base rank is positive; otherwise an adapter with
(conv rank, conv alpha) is created iff the conv rank is positive — also
when the kernel size is 1 (the `elif conv_lora_dim>0` branch does not
re-test the kernel size); otherwise no adapter is created.  Stated both
per leaf (any conv leaf, any configuration with an integer base rank)
and end to end through discovery over a host tree. -/
theorem C1_conv_shape_policy (k : Nat) (d cdim : Int) (mult a ca dp : Rat) (tag : ModuleTag) :
    (∀ (cfg : NetConfig) (ln : String) (child : TModule), cfg.lora_dim = some d →
      child.className = "Conv2d" →
      processLeaf cfg ln child =
        .ok (if child.kernelSize = 1 ∧ 0 < d then some (mkBaseAdapter cfg ln child)
          else if 0 < cfg.conv_lora_dim then some (mkConvAdapter cfg ln child)
          else none)) ∧
    create_modules ⟨tag, mult, some d, cdim, some a, ca, dp⟩ "p" (attnTree k) ["Attention"] =
      .ok (if k = 1 ∧ 0 < d then
          [⟨loraNameOf "p" "blk" "conv", convLeaf k, mult, some d, some a, dp, tag, false, []⟩]
        else if 0 < cdim then
          [⟨loraNameOf "p" "blk" "conv", convLeaf k, mult, some cdim, some ca, dp, tag, false, []⟩]
        else []) := by
  constructor
  · intro cfg ln child hld hcn
    have hlin : ¬ child.className = "Linear" := by rw [hcn]; decide
    by_cases hk : child.kernelSize = 1 <;> by_cases hd : 0 < d <;>
      by_cases hcv : 0 < cfg.conv_lora_dim <;>
      simp [processLeaf, dimPos, hld, hcn, hlin, hk, hd, hcv]
  · by_cases hk : k = 1 <;> by_cases hd : 0 < d <;> by_cases hc : 0 < cdim <;>
      simp [create_modules, targetLeaves, buildLoop, processLeaf, dimPos, mkBaseAdapter,
        mkConvAdapter, TModule.namedModules, TModule.namedModulesAux, namedModulesList,
        attnTree, convLeaf, TModule.className, TModule.kernelSize, childPath, hk, hd, hc]

theorem C1_conv_shape_policy_witness :
    processLeaf ⟨.locon, 1, some 0, 3, some 1, 2, 0⟩ "lora_unet_blk_conv" (convLeaf 1) =
      .ok (if (convLeaf 1).kernelSize = 1 ∧ 0 < (0 : Int) then
          some (mkBaseAdapter ⟨.locon, 1, some 0, 3, some 1, 2, 0⟩ "lora_unet_blk_conv"
            (convLeaf 1))
        else if 0 < (⟨.locon, 1, some 0, 3, some 1, 2, 0⟩ : NetConfig).conv_lora_dim then
          some (mkConvAdapter ⟨.locon, 1, some 0, 3, some 1, 2, 0⟩ "lora_unet_blk_conv"
            (convLeaf 1))
        else none) :=
  (C1_conv_shape_policy 1 0 3 1 1 2 0 .locon).1 ⟨.locon, 1, some 0, 3, some 1, 2, 0⟩
    "lora_unet_blk_conv" (convLeaf 1) rfl rfl

/-- C1 counterexample: the claim states that a 1×1 convolution leaf with
base rank 0 gets no adapter; with base rank 0 and conv rank 3 the code
does create an adapter for the 1×1 conv leaf, carrying
(conv rank 3, conv alpha 2). -/
theorem C1_counterexample :
    create_modules ⟨.locon, 1, some 0, 3, some 1, 2, 0⟩ "lora_unet" (attnTree 1) ["Attention"] =
      .ok [⟨"lora_unet_blk_conv", convLeaf 1, 1, some 3, some 2, 0, .locon, false, []⟩] := rfl

/-- Helper: `apply_to` fails exactly when flag resolution fails — the
remainder of the method (clearing, splicing, registering, non-strict
weight loading) is total. -/
theorem exceptOk_apply_to (net : LoRANetwork) (aTE aU : Option Bool) :
    exceptOk (net.apply_to aTE aU) = exceptOk (resolveFlags net.weights_sd aTE aU) := by
  cases h : resolveFlags net.weights_sd aTE aU with
  | error e => simp [LoRANetwork.apply_to, h, exceptOk]
  | ok fl => simp [LoRANetwork.apply_to, h, exceptOk]

/-- C3 (amended): `apply_to` raises exactly on a flag/weights
contradiction, with presence taken in the Python truthiness sense: when
the pending weights are present *and nonempty*, it fails iff an
explicitly given flag is the negation of the presence inferred from the
key prefixes; when the pending weights are absent *or the empty dict*,
it fails iff either flag was not explicitly provided. -/
theorem C3_apply_error_characterization (net : LoRANetwork) (aTE aU : Option Bool) :
    exceptOk (net.apply_to aTE aU) = false ↔
      (truthyWeights net.weights_sd = true ∧
        (aTE = some (!(scanPresence ((net.weights_sd.getD []).map Prod.fst) (false, false)).1)
          ∨ aU = some (!(scanPresence ((net.weights_sd.getD []).map Prod.fst) (false, false)).2)))
      ∨ (truthyWeights net.weights_sd = false ∧ (aTE = none ∨ aU = none)) := by
  rw [exceptOk_apply_to]
  unfold resolveFlags
  cases htr : truthyWeights net.weights_sd with
  | false =>
    simp only [htr, Bool.false_eq_true, if_false]
    cases aTE <;> cases aU <;> simp [exceptOk]
  | true =>
    simp only [htr, if_true]
    cases hsp : scanPresence ((net.weights_sd.getD []).map Prod.fst) (false, false) with
    | mk t u =>
      cases aTE with
      | none =>
        cases aU with
        | none => simp [resolveFlag, exceptOk]
        | some b => cases b <;> cases u <;> simp [resolveFlag, exceptOk]
      | some b =>
        cases aU with
        | none => cases b <;> cases t <;> simp [resolveFlag, exceptOk]
        | some b2 => cases b <;> cases b2 <;> cases t <;> cases u <;>
            simp [resolveFlag, exceptOk]

/-- C3 counterexample: the pending weights are present (an empty dict),
the presence inferred from its keys is `False` for both partitions, and
both flags are explicitly `True` — the claim demands a fatal flag/weights
contradiction, but `apply_to` succeeds, because `if self.weights_sd:`
treats the empty dict as absent and the explicit flags bypass every
check. -/
theorem C3_counterexample :
    emptyWeightsNet.weights_sd = some [] ∧
    scanPresence ((emptyWeightsNet.weights_sd.getD []).map Prod.fst) (false, false)
      = (false, false) ∧
    exceptOk (emptyWeightsNet.apply_to (some true) (some true)) = true :=
  ⟨rfl, rfl, rfl⟩

/-- Helper: with a non-`None` base rank, the per-leaf dispatch never
raises. -/
theorem processLeaf_some_ok (cfg : NetConfig) (d : Int) (h : cfg.lora_dim = some d)
    (ln : String) (c : TModule) : ∃ r, processLeaf cfg ln c = .ok r := by
  simp only [processLeaf, h, dimPos]
  split_ifs <;> exact ⟨_, rfl⟩

/-- Helper: the accumulation loop never raises when the per-leaf
dispatch never raises. -/
theorem buildLoop_ok (cfg : NetConfig) (pfx : String)
    (h : ∀ ln c, ∃ r, processLeaf cfg ln c = .ok r) :
    ∀ (trips : List (String × String × TModule)) (acc : List Adapter),
      ∃ l, buildLoop cfg pfx trips acc = .ok l := by
  intro trips
  induction trips with
  | nil => intro acc; exact ⟨acc, rfl⟩
  | cons t rest ih =>
    intro acc
    obtain ⟨nm, cn, c⟩ := t
    obtain ⟨r, hr⟩ := h (loraNameOf pfx nm cn) c
    cases r with
    | some a =>
      obtain ⟨l, hl⟩ := ih (acc ++ [a])
      exact ⟨l, by rw [buildLoop, hr]; exact hl⟩
    | none =>
      obtain ⟨l, hl⟩ := ih acc
      exact ⟨l, by rw [buildLoop, hr]; exact hl⟩

/-- Helper: discovery never raises when the base rank is not `None`. -/
theorem create_modules_ok (cfg : NetConfig) (d : Int) (h : cfg.lora_dim = some d)
    (pfx : String) (root : TModule) (targets : List String) :
    ∃ l, create_modules cfg pfx root targets = .ok l :=
  buildLoop_ok cfg pfx (processLeaf_some_ok cfg d h) (targetLeaves root targets) []

/-- Helper: the assertion loop succeeds exactly when the names seen so
far together with the incoming adapters' names are pairwise distinct. -/
theorem assertUniqueNames_ok_iff :
    ∀ (l : List Adapter) (seen : List String), seen.Nodup →
      (exceptOk (assertUniqueNames l seen) = true ↔
        (seen ++ l.map Adapter.lora_name).Nodup) := by
  intro l
  induction l with
  | nil => intro seen hs; simpa [assertUniqueNames, exceptOk] using hs
  | cons a rest ih =>
    intro seen hs
    by_cases hmem : a.lora_name ∈ seen
    · have hcon : seen.contains a.lora_name = true := by simpa using hmem
      rw [assertUniqueNames, if_pos hcon]
      simp only [exceptOk, Bool.false_eq_true, false_iff]
      intro hnd
      rcases List.nodup_append.mp hnd with ⟨-, -, hdisj⟩
      exact hdisj hmem (by simp)
    · have hcon : ¬ seen.contains a.lora_name = true := by simpa using hmem
      rw [assertUniqueNames, if_neg hcon]
      have hs' : (seen ++ [a.lora_name]).Nodup := by
        rw [List.nodup_append]
        refine ⟨hs, List.nodup_singleton _, ?_⟩
        intro x hx hx'
        simp only [List.mem_singleton] at hx'
        exact hmem (hx' ▸ hx)
      rw [ih (seen ++ [a.lora_name]) hs']
      rw [List.map_cons, List.append_cons, List.append_assoc]
      simp

/-- C4: constructing the controller raises exactly when the adapters
discovered across the two partitions contain a repeated flattened name,
and on success the union of both partitions' adapter names is pairwise
distinct (stated for any non-`None` base rank, under which discovery
itself is total). -/
theorem C4_name_uniqueness (te unet : TModule) (mult : Rat) (d cdim : Int)
    (a : Option Rat) (ca dp : Rat) (tag : ModuleTag) :
    (exceptOk (LoRANetwork.init te unet mult (some d) cdim a ca dp tag) = true ↔
      (adapterNames (create_modules ⟨tag, mult, some d, cdim, a, ca, dp⟩ "lora_te" te teTargets)
        ++ adapterNames
          (create_modules ⟨tag, mult, some d, cdim, a, ca, dp⟩ "lora_unet" unet unetTargets)).Nodup)
    ∧ (∀ net, LoRANetwork.init te unet mult (some d) cdim a ca dp tag = .ok net →
        (net.text_encoder_loras ++ net.unet_loras).map Adapter.lora_name =
          adapterNames (create_modules ⟨tag, mult, some d, cdim, a, ca, dp⟩ "lora_te" te teTargets)
            ++ adapterNames
              (create_modules ⟨tag, mult, some d, cdim, a, ca, dp⟩ "lora_unet" unet unetTargets)) := by
  obtain ⟨teL, hteL⟩ :=
    create_modules_ok ⟨tag, mult, some d, cdim, a, ca, dp⟩ d rfl "lora_te" te teTargets
  obtain ⟨uL, huL⟩ :=
    create_modules_ok ⟨tag, mult, some d, cdim, a, ca, dp⟩ d rfl "lora_unet" unet unetTargets
  have hiff := assertUniqueNames_ok_iff (teL ++ uL) [] List.nodup_nil
  simp only [List.nil_append, List.map_append] at hiff
  simp only [LoRANetwork.init, hteL, huL, adapterNames]
  cases hau : assertUniqueNames (teL ++ uL) [] with
  | error e =>
    rw [hau] at hiff
    simp only [exceptOk] at hiff ⊢
    constructor
    · exact hiff
    · intro net hnet
      cases hnet
  | ok uu =>
    rw [hau] at hiff
    simp only [exceptOk] at hiff ⊢
    constructor
    · exact hiff
    · intro net hnet
      injection hnet with hnet'
      subst hnet'
      simp [List.map_append]

theorem C4_name_uniqueness_witness :
    (c4net.text_encoder_loras ++ c4net.unet_loras).map Adapter.lora_name =
      adapterNames (create_modules ⟨.locon, 1, some 4, 4, some 1, 1, 0⟩ "lora_te" clipTree teTargets)
        ++ adapterNames
          (create_modules ⟨.locon, 1, some 4, 4, some 1, 1, 0⟩ "lora_unet" (attnTree 3) unetTargets) :=
  (C4_name_uniqueness clipTree (attnTree 3) 1 4 4 (some 1) 1 0 .locon).2 c4net rfl

/-- Helper: a created adapter carries exactly the flattened name it was
constructed with, and wraps exactly the leaf it was created for. -/
theorem processLeaf_shape (cfg : NetConfig) (ln : String) (c : TModule) (a : Adapter)
    (h : processLeaf cfg ln c = .ok (some a)) : a.lora_name = ln ∧ a.base = c := by
  unfold processLeaf at h
  cases hcd : cfg.lora_dim with
  | none =>
    rw [hcd] at h
    simp only [dimPos] at h
    split_ifs at h <;> simp_all [mkConvAdapter] <;> (subst h; exact ⟨rfl, rfl⟩)
  | some d =>
    rw [hcd] at h
    simp only [dimPos] at h
    split_ifs at h <;> simp_all [mkBaseAdapter, mkConvAdapter] <;> (subst h; exact ⟨rfl, rfl⟩)

/-- Helper: every adapter produced by the accumulation loop is either
carried over from the accumulator or produced by the per-leaf dispatch
on one of the iterated (container, leaf) pairs. -/
theorem buildLoop_mem (cfg : NetConfig) (pfx : String) :
    ∀ (trips : List (String × String × TModule)) (acc l : List Adapter),
      buildLoop cfg pfx trips acc = .ok l → ∀ a ∈ l,
        a ∈ acc ∨ ∃ nm cn c, (nm, cn, c) ∈ trips ∧
          processLeaf cfg (loraNameOf pfx nm cn) c = .ok (some a) := by
  intro trips
  induction trips with
  | nil =>
    intro acc l h a ha
    injection h with h'
    subst h'
    exact Or.inl ha
  | cons t rest ih =>
    intro acc l h a ha
    obtain ⟨nm, cn, c⟩ := t
    rw [buildLoop] at h
    cases hp : processLeaf cfg (loraNameOf pfx nm cn) c with
    | error e => rw [hp] at h; cases h
    | ok r =>
      rw [hp] at h
      cases r with
      | some b =>
        rcases ih (acc ++ [b]) l h a ha with hacc | ⟨nm', cn', c', ht', hp'⟩
        · rcases List.mem_append.mp hacc with h1 | h2
          · exact Or.inl h1
          · right
            refine ⟨nm, cn, c, by simp, ?_⟩
            simp only [List.mem_singleton] at h2
            subst h2
            exact hp
        · exact Or.inr ⟨nm', cn', c', by simp [ht'], hp'⟩
      | none =>
        rcases ih acc l h a ha with hacc | ⟨nm', cn', c', ht', hp'⟩
        · exact Or.inl hacc
        · exact Or.inr ⟨nm', cn', c', by simp [ht'], hp'⟩

/-- Helper: the iterated (container, leaf) pairs are exactly the leaves
of allow-listed containers of the traversal. -/
theorem mem_targetLeaves (root : TModule) (targets : List String)
    (nm cn : String) (c : TModule) :
    (nm, cn, c) ∈ targetLeaves root targets ↔
      ∃ mod, (nm, mod) ∈ root.namedModules ∧ targets.contains mod.className = true ∧
        (cn, c) ∈ mod.namedModules := by
  unfold targetLeaves
  rw [List.mem_flatMap]
  constructor
  · rintro ⟨⟨p1, p2⟩, hp, hmem⟩
    by_cases hc : targets.contains p2.className
    · rw [if_pos hc] at hmem
      rw [List.mem_map] at hmem
      obtain ⟨⟨q1, q2⟩, hq, heq⟩ := hmem
      cases heq
      exact ⟨p2, hp, hc, hq⟩
    · rw [if_neg hc] at hmem
      cases hmem
  · rintro ⟨mod, hmod, hc, hq⟩
    refine ⟨(nm, mod), hmod, ?_⟩
    rw [if_pos hc, List.mem_map]
    exact ⟨(cn, c), hq, rfl⟩

/-- C5: every adapter discovered by `create_modules` is named
`prefix + "." + containerPath + "." + leafName` with every `.` replaced
by `_`, for an allow-listed container of the traversal and a leaf of its
subtree, and wraps exactly that leaf. -/
theorem C5_adapter_naming (cfg : NetConfig) (pfx : String) (root : TModule)
    (targets : List String) (l : List Adapter)
    (h : create_modules cfg pfx root targets = .ok l) :
    ∀ a ∈ l, ∃ nm mod cn c,
      (nm, mod) ∈ root.namedModules ∧ targets.contains mod.className = true ∧
      (cn, c) ∈ mod.namedModules ∧ a.base = c ∧
      a.lora_name = pyReplaceDot (pfx ++ "." ++ nm ++ "." ++ cn) := by
  intro a ha
  rcases buildLoop_mem cfg pfx (targetLeaves root targets) [] l h a ha with
    hacc | ⟨nm, cn, c, ht, hp⟩
  · cases hacc
  · obtain ⟨mod, hmod, hc, hcn⟩ := (mem_targetLeaves root targets nm cn c).mp ht
    obtain ⟨hname, hbase⟩ := processLeaf_shape cfg (loraNameOf pfx nm cn) c a hp
    exact ⟨nm, mod, cn, c, hmod, hc, hcn, hbase, hname⟩

theorem C5_adapter_naming_witness :
    ∃ nm mod cn c,
      (nm, mod) ∈ (attnTree 3).namedModules ∧
      unetTargets.contains mod.className = true ∧
      (cn, c) ∈ mod.namedModules ∧
      (⟨"lora_unet_blk_conv", convLeaf 3, 1, some 4, some 1, 0, .locon, false, []⟩ : Adapter).base
        = c ∧
      (⟨"lora_unet_blk_conv", convLeaf 3, 1, some 4, some 1, 0, .locon, false, []⟩
          : Adapter).lora_name
        = pyReplaceDot ("lora_unet" ++ "." ++ nm ++ "." ++ cn) :=
  C5_adapter_naming ⟨.locon, 1, some 4, 4, some 1, 1, 0⟩ "lora_unet" (attnTree 3) unetTargets
    [⟨"lora_unet_blk_conv", convLeaf 3, 1, some 4, some 1, 0, .locon, false, []⟩] rfl
    _ (by simp)

/-- C6: under the flags resolved by `apply_to`, a disabled partition's
adapter sequence is set to empty, an enabled partition keeps all its
adapters, and every adapter remaining after the call has been spliced
(`apply_to()` invoked) and registered in the module namespace under its
name — and the registry holds exactly the remaining adapters. -/
theorem C6_partition_toggling (net : LoRANetwork) (aTE aU : Option Bool)
    (fl : Bool × Bool) (net' : LoRANetwork)
    (hres : resolveFlags net.weights_sd aTE aU = .ok fl)
    (happ : net.apply_to aTE aU = .ok net') :
    (fl.1 = false → net'.text_encoder_loras = []) ∧
    (fl.2 = false → net'.unet_loras = []) ∧
    (fl.1 = true → net'.text_encoder_loras.length = net.text_encoder_loras.length) ∧
    (fl.2 = true → net'.unet_loras.length = net.unet_loras.length) ∧
    (∀ a ∈ net'.text_encoder_loras ++ net'.unet_loras,
      a.attached = true ∧ (a.lora_name, a) ∈ net'.modules) ∧
    net'.modules = (net'.text_encoder_loras ++ net'.unet_loras).map fun a =>
      (a.lora_name, a) := by
  unfold LoRANetwork.apply_to at happ
  rw [hres] at happ
  injection happ with happ'
  subst happ'
  obtain ⟨f1, f2⟩ := fl
  refine ⟨?_, ?_, ?_, ?_, ?_, rfl⟩
  · intro h1
    have h1' : f1 = false := h1
    simp [h1']
  · intro h2
    have h2' : f2 = false := h2
    simp [h2']
  · intro h1
    have h1' : f1 = true := h1
    simp [h1']
  · intro h2
    have h2' : f2 = true := h2
    simp [h2']
  · intro a ha
    refine ⟨?_, List.mem_map.mpr ⟨a, ha, rfl⟩⟩
    rcases List.mem_append.mp ha with h | h <;>
      obtain ⟨b, hb, rfl⟩ := List.mem_map.mp h <;>
      by_cases hw : truthyWeights net.weights_sd <;>
      simp [hw, populate]

theorem C6_partition_toggling_witness :
    ((true, false).1 = false → c6net.text_encoder_loras = []) ∧
    ((true, false).2 = false → c6net.unet_loras = []) ∧
    ((true, false).1 = true →
      c6net.text_encoder_loras.length = c4net.text_encoder_loras.length) ∧
    ((true, false).2 = true → c6net.unet_loras.length = c4net.unet_loras.length) ∧
    (∀ a ∈ c6net.text_encoder_loras ++ c6net.unet_loras,
      a.attached = true ∧ (a.lora_name, a) ∈ c6net.modules) ∧
    c6net.modules = (c6net.text_encoder_loras ++ c6net.unet_loras).map fun a =>
      (a.lora_name, a) :=
  C6_partition_toggling c4net (some true) (some false) (true, false) c6net rfl rfl

/-- C7: with pending weights present (nonempty) and the flags left to
inference, `apply_to` never raises, whatever the weight dictionary
covers; a parameter whose fully-qualified key is missing from the
dictionary keeps its current (zero-initialized) value; a parameter whose
key is present is overwritten with the dictionary's tensor; and a
dictionary entry matching no parameter key of the adapter is ignored. -/
theorem C7_partial_weight_tolerance :
    (∀ (net : LoRANetwork) (w : List (String × Tensor)), w ≠ [] →
      exceptOk (LoRANetwork.apply_to { net with weights_sd := some w } none none) = true) ∧
    (∀ (a : Adapter) (w : List (String × Tensor)) (pk : String) (pv : Tensor),
      (pk, pv) ∈ a.tensors → w.lookup (a.lora_name ++ "." ++ pk) = none →
      (pk, pv) ∈ (populate a w).tensors) ∧
    (∀ (a : Adapter) (w : List (String × Tensor)) (pk : String) (pv0 v : Tensor),
      (pk, pv0) ∈ a.tensors → w.lookup (a.lora_name ++ "." ++ pk) = some v →
      (pk, v) ∈ (populate a w).tensors) ∧
    (∀ (a : Adapter) (w : List (String × Tensor)) (k : String) (v : Tensor),
      (∀ pk ∈ a.tensors.map Prod.fst, k ≠ a.lora_name ++ "." ++ pk) →
      populate a ((k, v) :: w) = populate a w) := by
  refine ⟨?_, ?_, ?_, ?_⟩
  · intro net w hw
    rw [exceptOk_apply_to]
    cases w with
    | nil => exact absurd rfl hw
    | cons p rest =>
      simp [resolveFlags, truthyWeights, resolveFlag, exceptOk]
  · intro a w pk pv hmem hlook
    unfold populate
    exact List.mem_map.mpr ⟨(pk, pv), hmem, by simp [hlook]⟩
  · intro a w pk pv0 v hmem hlook
    unfold populate
    exact List.mem_map.mpr ⟨(pk, pv0), hmem, by simp [hlook]⟩
  · intro a w k v hk
    unfold populate
    congr 1
    apply List.map_congr_left
    intro p hp
    obtain ⟨pk, pv⟩ := p
    have hne : a.lora_name ++ "." ++ pk ≠ k :=
      Ne.symm (hk pk (List.mem_map.mpr ⟨(pk, pv), hp, rfl⟩))
    have hbe : ((a.lora_name ++ "." ++ pk) == k) = false := by
      simpa using hne
    simp [List.lookup, hbe]

theorem C7_partial_weight_tolerance_witness :
    ("lora_up.weight", (⟨[4, 8], 0⟩ : Tensor)) ∈
      (populate c7adapter [("other.key", ⟨[2], 5⟩)]).tensors :=
  C7_partial_weight_tolerance.2.1 c7adapter [("other.key", ⟨[2], 5⟩)] "lora_up.weight"
    ⟨[4, 8], 0⟩ (by decide) rfl

/-- Helper: a successfully constructed controller stores the
construction hyperparameters unchanged and starts with no pending
weights and an empty module registry. -/
theorem init_fields (te unet : TModule) (mult : Rat) (ld : Option Int) (cd : Int)
    (a : Option Rat) (ca dp : Rat) (tag : ModuleTag) (net : LoRANetwork)
    (h : LoRANetwork.init te unet mult ld cd a ca dp tag = .ok net) :
    net.multiplier = mult ∧ net.lora_dim = ld ∧ net.conv_lora_dim = cd ∧ net.alpha = a ∧
    net.conv_alpha = ca ∧ net.dropout = dp ∧ net.netmod = tag ∧ net.weights_sd = none ∧
    net.modules = [] := by
  simp only [LoRANetwork.init] at h
  cases h1 : create_modules ⟨tag, mult, ld, cd, a, ca, dp⟩ "lora_te" te teTargets with
  | error e => rw [h1] at h; cases h
  | ok teL =>
    rw [h1] at h
    cases h2 : create_modules ⟨tag, mult, ld, cd, a, ca, dp⟩ "lora_unet" unet unetTargets with
    | error e => rw [h2] at h; cases h
    | ok uL =>
      rw [h2] at h
      have h' : (match assertUniqueNames (teL ++ uL) [] with
          | .error e => (.error e : Except String LoRANetwork)
          | .ok _ =>
            .ok ⟨mult, ld, cd, a, ca, dp, tag, teL, uL, none, []⟩) = .ok net := h
      cases h3 : assertUniqueNames (teL ++ uL) [] with
      | error e => rw [h3] at h'; cases h'
      | ok uu =>
        rw [h3] at h'
        injection h' with h''
        subst h''
        exact ⟨rfl, rfl, rfl, rfl, rfl, rfl, rfl, rfl, rfl⟩

/-- Helper: the inference scan computes, for each of the two slots
independently, the first match in iteration order (kept once found). -/
theorem inferLoop_eq (l : List (String × Tensor)) : ∀ a d, inferLoop l a d =
    (optFirst a ((l.find? fun p => strContains p.1 "alpha").map Prod.snd),
     optFirst d ((l.find? fun p =>
         strContains p.1 "lora_down" && decide (p.2.shape.length = 2)).map
       fun p => p.2.shape.getD 0 0)) := by
  induction l with
  | nil => intro a d; cases a <;> cases d <;> simp [inferLoop, optFirst]
  | cons p rest ih =>
    intro a d
    obtain ⟨k, v⟩ := p
    rw [inferLoop, ih]
    cases a <;> cases d <;>
      by_cases h1 : strContains k "alpha" = true <;>
      by_cases h2 : (strContains k "lora_down" && decide (v.shape.length = 2)) = true <;>
      simp [List.find?, h1, h2, optFirst]

/-- Helper: a successfully built `create_network_from_weights` result
carries the inferred rank, the inferred (or fallback) alpha, the
pre-populated pending weights, and the `LoRANetwork.__init__` defaults
for everything else. -/
theorem createNetworkFromWeights_fields (mult : Rat) (w : List (String × Tensor))
    (te unet : TModule) (kw : List (String × KwVal)) (net : LoRANetwork)
    (h : createNetworkFromWeights mult w te unet kw = .ok net) :
    net.lora_dim = (inferLoop w none none).2.map Int.ofNat ∧
    net.alpha = (match (inferLoop w none none).1 with
      | some t => some t.val
      | none => (inferLoop w none none).2.map fun d => (d : Rat)) ∧
    net.weights_sd = some w ∧ net.conv_lora_dim = 4 ∧ net.conv_alpha = 1 ∧
    net.dropout = 0 ∧ net.netmod = .locon ∧ net.multiplier = mult := by
  simp only [createNetworkFromWeights] at h
  cases hinit : LoRANetwork.init te unet mult ((inferLoop w none none).2.map Int.ofNat) 4
      (match (inferLoop w none none).1 with
       | some t => some t.val
       | none => (inferLoop w none none).2.map fun d => (d : Rat)) 1 0 .locon with
  | error e => rw [hinit] at h; cases h
  | ok n0 =>
    rw [hinit] at h
    injection h with h'
    subst h'
    obtain ⟨hm, hld, hcd, ha, hca, hdp, htag, hw, hmod⟩ :=
      init_fields _ _ _ _ _ _ _ _ _ _ hinit
    exact ⟨by simpa using hld, by simpa using ha, rfl, by simpa using hcd,
      by simpa using hca, by simpa using hdp, by simpa using htag, by simpa using hm⟩

/-- C8: for every weight dictionary, the inferred alpha is the value of
the first key (in iteration order) containing `alpha`; the inferred rank
is the leading dimension of the first 2-dimensional tensor whose key
contains `lora_down`; if no key contains `alpha`, alpha falls back to
the inferred rank; and the returned controller has its pending weights
pre-populated with the loaded mapping. -/
theorem C8_from_weights_inference (mult : Rat) (w : List (String × Tensor))
    (te unet : TModule) (kw : List (String × KwVal)) (net : LoRANetwork)
    (h : createNetworkFromWeights mult w te unet kw = .ok net) :
    net.lora_dim = ((w.find? fun p =>
        strContains p.1 "lora_down" && decide (p.2.shape.length = 2)).map
      fun p => Int.ofNat (p.2.shape.getD 0 0)) ∧
    net.alpha = optFirst
      ((w.find? fun p => strContains p.1 "alpha").map fun p => p.2.val)
      ((w.find? fun p => strContains p.1 "lora_down" && decide (p.2.shape.length = 2)).map
        fun p => ((p.2.shape.getD 0 0 : Nat) : Rat)) ∧
    net.weights_sd = some w := by
  obtain ⟨hld, ha, hw, -, -, -, -, -⟩ :=
    createNetworkFromWeights_fields mult w te unet kw net h
  rw [inferLoop_eq] at hld ha
  refine ⟨?_, ?_, hw⟩
  · rw [hld]
    cases hD : w.find? (fun p =>
        strContains p.1 "lora_down" && decide (p.2.shape.length = 2)) <;>
      simp [optFirst, hD]
  · rw [ha]
    cases hA : w.find? (fun p => strContains p.1 "alpha") <;>
    cases hD : w.find? (fun p =>
        strContains p.1 "lora_down" && decide (p.2.shape.length = 2)) <;>
      simp [optFirst, hA, hD]

theorem C8_from_weights_inference_witness :
    c8net.lora_dim = some 16 ∧ c8net.alpha = some 8 ∧
      c8net.weights_sd = some c8weights := by
  have h := C8_from_weights_inference 1 c8weights emptyHost emptyHost [] c8net rfl
  exact ⟨h.1.trans rfl, h.2.1.trans rfl, h.2.2⟩

/-- C10: `create_network_from_weights` never reads its keyword options —
the result is identical for any two option lists — and the returned
controller always carries the constructor defaults conv rank 4,
conv alpha 1, dropout 0 and the LoCon strategy tag. -/
theorem C10_kwargs_ignored (mult : Rat) (w : List (String × Tensor)) (te unet : TModule)
    (kw kw2 : List (String × KwVal)) :
    createNetworkFromWeights mult w te unet kw
      = createNetworkFromWeights mult w te unet kw2 ∧
    ∀ net, createNetworkFromWeights mult w te unet kw = .ok net →
      net.conv_lora_dim = 4 ∧ net.conv_alpha = 1 ∧ net.dropout = 0 ∧
        net.netmod = .locon := by
  refine ⟨rfl, ?_⟩
  intro net h
  obtain ⟨-, -, -, hcd, hca, hdp, htag, -⟩ :=
    createNetworkFromWeights_fields mult w te unet kw net h
  exact ⟨hcd, hca, hdp, htag⟩

theorem C10_kwargs_ignored_witness :
    c8net.conv_lora_dim = 4 ∧ c8net.conv_alpha = 1 ∧ c8net.dropout = 0 ∧
      c8net.netmod = .locon :=
  (C10_kwargs_ignored 1 c8weights emptyHost emptyHost
    [("conv_dim", .num 32), ("conv_alpha", .num 7), ("dropout", .num (1 / 2)),
      ("algo", .str "loha")] []).2 c8net rfl

/-- Helper: positional access through the multiplier-broadcast map. -/
theorem getD_map_multiplier (L : List Adapter) (m : Rat) (i : Nat) (h : i < L.length) :
    (L.map fun l => { l with multiplier := m }).getD i defaultAdapter =
      { L.getD i defaultAdapter with multiplier := m } := by
  rw [List.getD_eq_getElem?_getD, List.getD_eq_getElem?_getD, List.getElem?_map,
    List.getElem?_eq_getElem h]
  simp

/-- C9: `set_multiplier` sets the controller's own multiplier and every
adapter's multiplier in both partitions to the new value, and changes
nothing else — each adapter keeps its name, base, rank, alpha, dropout,
strategy tag, attachment state and parameter tensors, and every other
controller field is untouched. -/
theorem C9_set_multiplier_broadcast (net : LoRANetwork) (m : Rat) :
    (net.set_multiplier m).multiplier = m ∧
    (net.set_multiplier m).text_encoder_loras.length = net.text_encoder_loras.length ∧
    (net.set_multiplier m).unet_loras.length = net.unet_loras.length ∧
    (∀ i, i < net.text_encoder_loras.length →
      (net.set_multiplier m).text_encoder_loras.getD i defaultAdapter =
        { net.text_encoder_loras.getD i defaultAdapter with multiplier := m }) ∧
    (∀ i, i < net.unet_loras.length →
      (net.set_multiplier m).unet_loras.getD i defaultAdapter =
        { net.unet_loras.getD i defaultAdapter with multiplier := m }) ∧
    (net.set_multiplier m).lora_dim = net.lora_dim ∧
    (net.set_multiplier m).conv_lora_dim = net.conv_lora_dim ∧
    (net.set_multiplier m).alpha = net.alpha ∧
    (net.set_multiplier m).conv_alpha = net.conv_alpha ∧
    (net.set_multiplier m).dropout = net.dropout ∧
    (net.set_multiplier m).netmod = net.netmod ∧
    (net.set_multiplier m).weights_sd = net.weights_sd ∧
    (net.set_multiplier m).modules = net.modules := by
  refine ⟨rfl, by simp [LoRANetwork.set_multiplier], by simp [LoRANetwork.set_multiplier],
    ?_, ?_, rfl, rfl, rfl, rfl, rfl, rfl, rfl, rfl⟩
  · intro i h
    exact getD_map_multiplier net.text_encoder_loras m i h
  · intro i h
    exact getD_map_multiplier net.unet_loras m i h

theorem C9_set_multiplier_broadcast_witness :
    (c4net.set_multiplier 5).text_encoder_loras.getD 0 defaultAdapter =
      { c4net.text_encoder_loras.getD 0 defaultAdapter with multiplier := 5 } :=
  (C9_set_multiplier_broadcast c4net 5).2.2.2.1 0 (by decide)
